import Mathlib

/-!
Verification of the update-orchestration logic of a small HTTP-triggered
dynamic-DNS updater (`main.go`).  The Go source is shallowly embedded:

* the request validator (`UpdateRequest.validateIp`, main.go 75-81), including a
  faithful model of Go 1.24's `net.ParseIP` (which dispatches on the first of
  `.`, `:`, `%` and parses dotted-decimal IPv4 or full IPv6 text, rejecting
  zones) and of `net.IP.To4`;
* the change builder (`MakeChangeRequest`, main.go 110-147), with the
  `time.Now()` timestamp supplied by an explicit clock;
* the per-host update (`UpdateRoute53Record`, main.go 149-170) and the
  orchestrator (`ProcessIpChange`, main.go 172-195), modelled as pure functions
  from an abstract remote client and clock to a trace of observable events
  (debug/info/error log records, remote calls, notifier invocations);
* the commit-flag handling of the HTTP handler (`nicUpdateHandler`,
  main.go 274-287) together with Go's `strconv.ParseBool`.

The remote DNS client is abstracted as a function from the call index (how many
remote calls were made before) and the change input to an optional error, and
the notifier (`NotifyPushover`, main.go 83-108) is treated as an external
collaborator: the trace records the orchestrator's calls to it.
-/

/-! ## Go `strconv.ParseBool` and the handler's commit-parameter logic -/

/-- Go's `strconv.ParseBool`: accepts exactly the twelve literals below and
reports a syntax error (here `none`) on everything else. -/
def ParseBool (s : String) : Option Bool :=
  if s = "1" ∨ s = "t" ∨ s = "T" ∨ s = "true" ∨ s = "TRUE" ∨ s = "True" then some true
  else if s = "0" ∨ s = "f" ∨ s = "F" ∨ s = "false" ∨ s = "FALSE" ∨ s = "False" then some false
  else none

/-- Commit-flag computation of `nicUpdateHandler` (main.go 276-279):
`commitChanges` starts `true`; when the `commit` form parameter is present the
handler overwrites it with `strconv.ParseBool`'s result, discarding the error
(`ParseBool` returns `false` together with the error on unparseable input). -/
def parseCommitParam (commitParam : Option String) : Bool :=
  match commitParam with
  | none => true
  | some v => (ParseBool v).getD false

/-- An inbound update request (main.go 65-69). -/
structure UpdateRequest where
  Host : String
  IP : String
  Commit : Bool
deriving DecidableEq

/-- Request construction in `nicUpdateHandler` (main.go 274-284).  A parameter
value of `none` models absence of the form key; `req.FormValue` yields `""` for
absent keys. -/
def nicUpdateHandler (hostnameParam ipParam commitParam : Option String) : UpdateRequest :=
  { Host := hostnameParam.getD ""
  , IP := ipParam.getD ""
  , Commit := parseCommitParam commitParam }

/-! ## Go `net.ParseIP` (Go 1.24, `netip`-based) -/

/-- Numeric value of a decimal digit character. -/
def digitVal (c : Char) : Nat := c.toNat - 48

/-- Go's `parseIPv4Fields` (net/netip): an imperative scan over the string with
state `val` (value of the current octet so far), `digLen` (number of digits in
the current octet so far) and `fields` (completed octets).  Rejects empty
fields, octets with a leading zero, octets above 255, more or fewer than four
fields and any character other than a decimal digit or `.`. -/
def parseIPv4Fields : List Char → Nat → Nat → List Nat → Option (List Nat)
  | [], val, _digLen, fields =>
    if fields.length < 3 then none else some (fields ++ [val])
  | c :: rest, val, digLen, fields =>
    if c.isDigit then
      if digLen = 1 ∧ val = 0 then none
      else if 255 < val * 10 + digitVal c then none
      else parseIPv4Fields rest (val * 10 + digitVal c) (digLen + 1) fields
    else if c = '.' then
      if digLen = 0 then none
      else if rest.isEmpty then none
      else if fields.length = 3 then none
      else parseIPv4Fields rest 0 0 (fields ++ [val])
    else none

/-- Go hex-digit test used by the IPv6 parser. -/
def isHexDigitGo (c : Char) : Bool :=
  c.isDigit || ('a' ≤ c && c ≤ 'f') || ('A' ≤ c && c ≤ 'F')

/-- Value of a hex digit character. -/
def hexDigitVal (c : Char) : Nat :=
  if c.isDigit then c.toNat - 48
  else if 'a' ≤ c && c ≤ 'f' then c.toNat - 97 + 10
  else c.toNat - 65 + 10

/-- The hex-group scan at the top of each iteration of Go's `parseIPv6` loop:
consumes leading hex digits, accumulating the value and the digit count, and
fails on a fifth digit (or on a value above `0xFFFF`, unreachable with at most
four digits).  Returns the value, the unconsumed remainder and the number of
digits consumed. -/
def scanHexGroup : List Char → Nat → Nat → Option (Nat × List Char × Nat)
  | [], acc, off => some (acc, [], off)
  | c :: rest, acc, off =>
    if isHexDigitGo c then
      if 3 < off then none
      else
        let acc2 := acc * 16 + hexDigitVal c
        if 65535 < acc2 then none
        else scanHexGroup rest acc2 (off + 1)
    else some (acc, c :: rest, off)

/-- Split a string at the first `%`, as Go's `parseIPv6` splits off the zone.
The second component is `none` when no `%` occurs. -/
def splitZone : List Char → List Char × Option (List Char)
  | [] => ([], none)
  | c :: rest =>
    if c = '%' then ([], some rest)
    else
      let p := splitZone rest
      (c :: p.1, p.2)

/-- The main loop of Go's `parseIPv6` (net/netip).  `acc` is the list of bytes
written so far (Go's `ip[:i]`, so `acc.length` plays the role of `i`), `ell`
the position of the `::` ellipsis if seen.  Returns the state at loop exit:
bytes, unconsumed input and ellipsis position.  The loop runs while
`acc.length < 16` and every recursive call grows `acc` by two bytes, so at most
eight iterations occur and a fuel of 16 is never exhausted. -/
def v6loop : Nat → List Char → List Nat → Option Nat →
    Option (List Nat × List Char × Option Nat)
  | 0, _, _, _ => none
  | fuel + 1, s, acc, ell =>
    if 16 ≤ acc.length then some (acc, s, ell)
    else
      match scanHexGroup s 0 0 with
      | none => none
      | some (v, rest, off) =>
        if off = 0 then none
        else if rest.head? = some '.' then
          -- embedded IPv4 in the final two fields; parsed from the start of
          -- the current field (Go passes `in[end-len(s):end]`)
          if ell.isNone ∧ acc.length ≠ 12 then none
          else if 16 < acc.length + 4 then none
          else
            match parseIPv4Fields s 0 0 [] with
            | none => none
            | some fields => some (acc ++ fields, [], ell)
        else
          let acc2 := acc ++ [v / 256, v % 256]
          if rest.isEmpty then some (acc2, [], ell)
          else if rest.head? ≠ some ':' then none
          else if rest.length = 1 then none
          else
            let rest2 := rest.tail
            if rest2.head? = some ':' then
              if ell.isSome then none
              else if rest2.tail.isEmpty then some (acc2, [], some acc2.length)
              else v6loop fuel rest2.tail acc2 (some acc2.length)
            else v6loop fuel rest2 acc2 ell

/-- Post-loop processing of Go's `parseIPv6`: reject trailing garbage, expand
the ellipsis when fewer than 16 bytes were written (reject if there is none),
and reject an ellipsis that expands to zero groups. -/
def v6finish : Option (List Nat × List Char × Option Nat) → Option (List Nat)
  | none => none
  | some (acc, s, ell) =>
    if ¬s.isEmpty then none
    else if acc.length < 16 then
      match ell with
      | none => none
      | some e => some (acc.take e ++ List.replicate (16 - acc.length) 0 ++ acc.drop e)
    else
      match ell with
      | some _ => none
      | none => some acc

/-- Go's `parseIPv6`: split off the `%` zone (an empty zone is an error),
handle a leading `::` (possibly the whole address), then run the loop.
Returns the 16 parsed bytes together with the zone. -/
def netipParseIPv6 (cs : List Char) : Option (List Nat × Option (List Char)) :=
  let p := splitZone cs
  match p.2 with
  | some [] => none
  | zone =>
    let core :=
      match p.1 with
      | ':' :: ':' :: rest =>
        if rest.isEmpty then some (List.replicate 16 0)
        else v6finish (v6loop 16 rest [] (some 0))
      | addr => v6finish (v6loop 16 addr [] none)
    core.map (fun b => (b, zone))

/-- First dispatch character of `netip.ParseAddr`: the first occurrence of
`.`, `:` or `%` decides the parse. -/
def findSpecial : List Char → Option Char
  | [] => none
  | c :: rest =>
    if c = '.' ∨ c = ':' ∨ c = '%' then some c else findSpecial rest

/-- The 16-byte IPv4-mapped form of four octets (Go's `Addr.As16` for an IPv4
address). -/
def v4Mapped (fields : List Nat) : List Nat :=
  [0, 0, 0, 0, 0, 0, 0, 0, 0, 0, 255, 255] ++ fields

/-- Go 1.24's `net.ParseIP`: `netip.ParseAddr` followed by rejection of a
nonempty zone; always yields the 16-byte form (`As16`) on success. -/
def ParseIP (s : String) : Option (List Nat) :=
  match findSpecial s.toList with
  | none => none
  | some c =>
    if c = '.' then (parseIPv4Fields s.toList 0 0 []).map v4Mapped
    else if c = ':' then
      match netipParseIPv6 s.toList with
      | none => none
      | some p => if p.2.isSome then none else some p.1
    else none

/-- Go's `net.IP.To4`: a 4-byte address is returned as is; a 16-byte address is
shortened when it lies in the IPv4-mapped range; everything else is `nil`. -/
def To4 (ip : List Nat) : Option (List Nat) :=
  if ip.length = 4 then some ip
  else if ip.length = 16 ∧ ip.take 10 = List.replicate 10 0 ∧
      ip[10]? = some 255 ∧ ip[11]? = some 255 then
    some (ip.drop 12)
  else none

/-- `UpdateRequest.validateIp` (main.go 75-81): `net.ParseIP(r.IP).To4()`,
with `nil` turned into the error message of main.go 78. -/
def validateIp (r : UpdateRequest) : Except String (List Nat) :=
  match (ParseIP r.IP).bind To4 with
  | some ip => .ok ip
  | none => .error ("'" ++ r.IP ++ "' is not a valid IpV4 address")

/-- Go's rendering `net.IP.String` of a 4-byte address: dotted decimal. -/
def ipToString (ip : List Nat) : String :=
  String.intercalate "." (ip.map (fun b => toString b))

/-! ## Configuration and the change builder -/

/-- Per-host configuration (main.go 46-50). -/
structure HostConfig where
  zoneId : String
  ttl : Int
  additionalHosts : List String
deriving DecidableEq

/-- Pushover notifier credentials (main.go 52-55); the notifier itself is an
external collaborator, so these are carried but not interpreted here. -/
structure PushoverConfig where
  apiToken : String
  recipientKey : String
deriving DecidableEq

/-- Application configuration (main.go 57-63).  The Go record map is modelled
by its lookup function. -/
structure AppConfig where
  port : Int
  records : String → Option HostConfig
  pushover : PushoverConfig

/-- DNS record types occurring in the change builder. -/
inductive RRType where
  | A
  | TXT
deriving DecidableEq

/-- Change actions occurring in the change builder. -/
inductive ChangeAction where
  | upsert
deriving DecidableEq

/-- An AWS `types.ResourceRecordSet` as populated by `MakeChangeRequest`. -/
structure ResourceRecordSet where
  name : String
  recordType : RRType
  ttl : Int
  resourceRecords : List String
deriving DecidableEq

/-- An AWS `types.Change` as populated by `MakeChangeRequest`. -/
structure Change where
  action : ChangeAction
  resourceRecordSet : ResourceRecordSet
deriving DecidableEq

/-- An AWS `route53.ChangeResourceRecordSetsInput` as populated by
`MakeChangeRequest`: a change batch (changes plus comment) and the zone id. -/
structure ChangeResourceRecordSetsInput where
  changeBatchChanges : List Change
  changeBatchComment : String
  hostedZoneId : String
deriving DecidableEq

/-- `MakeChangeRequest` (main.go 110-147).  `now` stands for the value of
`time.Now().String()` at the moment of the call; callers draw it from an
explicit clock. -/
def MakeChangeRequest (now : String) (zoneId : String) (hostname : String)
    (ip : List Nat) (ttl : Int) : ChangeResourceRecordSetsInput :=
  let resourceHostName := hostname ++ "."
  let resourceIp := ipToString ip
  let lastUpdatedMsg := "\"Last Updated: " ++ now ++ "\""
  { changeBatchChanges :=
      [ { action := ChangeAction.upsert
        , resourceRecordSet :=
            { name := resourceHostName, recordType := RRType.A, ttl := ttl
            , resourceRecords := [resourceIp] } }
      , { action := ChangeAction.upsert
        , resourceRecordSet :=
            { name := resourceHostName, recordType := RRType.TXT, ttl := ttl
            , resourceRecords := [lastUpdatedMsg] } } ]
  , changeBatchComment := "Unifi Updated IP Address"
  , hostedZoneId := zoneId }

/-! ## The orchestrator as a trace of observable events -/

/-- Observable events of one `ProcessIpChange` run: the debug log of the built
change input (main.go 153), the remote call with its outcome (main.go 155),
the error log of a failed remote call (main.go 157-160), the success log
(main.go 163-166), a notifier invocation (main.go 181 and 188), and the two
local error logs (main.go 175 and 193). -/
inductive Event where
  | logChangeInput (input : ChangeResourceRecordSetsInput)
  | remoteCall (input : ChangeResourceRecordSetsInput) (result : Option String)
  | logRemoteError (input : ChangeResourceRecordSetsInput) (err : String)
  | logUpdateSuccess (hostname : String)
  | notify (host : String) (err : Option String)
  | logInvalidIp (request : UpdateRequest) (err : String)
  | logHostNotFound (request : UpdateRequest)
deriving DecidableEq

/-- Whether an event is a remote DNS call. -/
def Event.isRemoteCall : Event → Bool
  | .remoteCall _ _ => true
  | _ => false

/-- Whether an event is a notifier invocation. -/
def Event.isNotify : Event → Bool
  | .notify _ _ => true
  | _ => false

/-- The change input of a remote-call event, if any. -/
def remoteCallInput : Event → Option ChangeResourceRecordSetsInput
  | .remoteCall input _ => some input
  | _ => none

/-- The remote DNS client, abstracted: given the index of the call (how many
remote calls happened before it in this run) and the change input, it returns
`none` for success or `some err` for a failed call. -/
def RemoteClient : Type := Nat → ChangeResourceRecordSetsInput → Option String

/-- The timestamp source: `clock t` is the value of `time.Now().String()` at
the `t`-th call of `time.Now()` in this run. -/
def Clock : Type := Nat → String

/-- Result of one `UpdateRoute53Record` call: its events, its returned error,
and the next remote-call index and clock tick. -/
structure UpdateResult where
  events : List Event
  err : Option String
  nextCall : Nat
  nextTick : Nat
deriving DecidableEq

/-- `UpdateRoute53Record` (main.go 149-170): build the change input, log it at
debug level, and only when `commit` holds issue the remote call, logging an
error (and returning it) or a success message.  With `commit = false` the
function returns `nil` without touching the client. -/
def UpdateRoute53Record (client : RemoteClient) (clock : Clock) (callIdx tick : Nat)
    (hostConfig : HostConfig) (hostname : String) (ip : List Nat) (commit : Bool) :
    UpdateResult :=
  let input := MakeChangeRequest (clock tick) hostConfig.zoneId hostname ip hostConfig.ttl
  if commit then
    match client callIdx input with
    | some e =>
      { events := [.logChangeInput input, .remoteCall input (some e), .logRemoteError input e]
      , err := some e, nextCall := callIdx + 1, nextTick := tick + 1 }
    | none =>
      { events := [.logChangeInput input, .remoteCall input none, .logUpdateSuccess hostname]
      , err := none, nextCall := callIdx + 1, nextTick := tick + 1 }
  else
    { events := [.logChangeInput input], err := none, nextCall := callIdx, nextTick := tick + 1 }

/-- The fallback fan-out loop of `ProcessIpChange` (main.go 184-190): update
each additional host in order with the same host configuration and IP, and
notify for an additional host exactly when its own update returned an error. -/
def processAdditionalHosts (client : RemoteClient) (clock : Clock)
    (hostConfig : HostConfig) (ip : List Nat) (commit : Bool) :
    List String → Nat → Nat → List Event
  | [], _, _ => []
  | h :: rest, callIdx, tick =>
    let res := UpdateRoute53Record client clock callIdx tick hostConfig h ip commit
    res.events ++
      (match res.err with
       | some e => [Event.notify h (some e)]
       | none => []) ++
      processAdditionalHosts client clock hostConfig ip commit rest res.nextCall res.nextTick

/-- `ProcessIpChange` (main.go 172-195): validate the IP (logging and stopping
on failure), look the host up in the configuration (logging and stopping when
absent), update the primary host, notify its outcome unconditionally, and on a
primary error run the additional-host fan-out. -/
def ProcessIpChange (client : RemoteClient) (clock : Clock) (appConfig : AppConfig)
    (request : UpdateRequest) : List Event :=
  match validateIp request with
  | .error e => [Event.logInvalidIp request e]
  | .ok ip =>
    match appConfig.records request.Host with
    | some hostConfig =>
      let res := UpdateRoute53Record client clock 0 0 hostConfig request.Host ip request.Commit
      res.events ++ [Event.notify request.Host res.err] ++
        (match res.err with
         | some _ =>
           processAdditionalHosts client clock hostConfig ip request.Commit
             hostConfig.additionalHosts res.nextCall res.nextTick
         | none => [])
    | none => [Event.logHostNotFound request]

/-! ## Grammar-level view of dotted-decimal IPv4 strings

These definitions follow the spec's wording (a dotted-decimal IPv4 address:
four dot-separated decimal octets) rather than the Go parser; the claims about
`validateIp` are settled by comparing the two. -/

/-- Split a character list at every `.` (the separators are consumed; an empty
input yields one empty group, mirroring ordinary string splitting). -/
def splitDot : List Char → List (List Char)
  | [] => [[]]
  | c :: rest =>
    if c = '.' then [] :: splitDot rest
    else
      match splitDot rest with
      | g :: gs => (c :: g) :: gs
      | [] => [[c]]

/-- Decimal value of a digit group appended to a running value. -/
def foldVal (val : Nat) (g : List Char) : Nat :=
  g.foldl (fun a c => a * 10 + digitVal c) val

/-- A digit group has no leading zero (a lone `0` is allowed). -/
def noLeadingZero (g : List Char) : Bool :=
  match g with
  | [] => true
  | c :: t => if c = '0' then t.isEmpty else true

/-- A valid decimal octet: nonempty, all digits, no leading zero (a lone `0`
is allowed), value at most 255. -/
def validOctetField (g : List Char) : Bool :=
  (!g.isEmpty) && g.all Char.isDigit && noLeadingZero g && decide (foldVal 0 g ≤ 255)

/-- Dotted-decimal IPv4 form, per the spec's words: exactly four dot-separated
valid decimal octets. -/
def isDottedDecimalIPv4 (s : String) : Bool :=
  let groups := splitDot s.toList
  decide (groups.length = 4) && groups.all validOctetField

/-- The string parses as an IPv6 address (no zone) whose 16-byte form lies in
the IPv4-mapped range, i.e. Go's `To4` succeeds on it. -/
def acceptsAsIPv4MappedIPv6 (s : String) : Bool :=
  match netipParseIPv6 s.toList with
  | some (b, none) => (To4 b).isSome
  | _ => false

/-- The change inputs the fan-out loop sends for a host list, starting at clock
tick `t`: one input per host, in order, all with the given zone, IP and TTL. -/
def mkFanInputs (clock : Clock) (zoneId : String) (ip : List Nat) (ttl : Int) :
    List String → Nat → List ChangeResourceRecordSetsInput
  | [], _ => []
  | h :: rest, t => MakeChangeRequest (clock t) zoneId h ip ttl :: mkFanInputs clock zoneId ip ttl rest (t + 1)

/-! ## Helper lemmas about `UpdateRoute53Record` and the orchestrator trace -/

/-- With `commit = false`, `UpdateRoute53Record` only logs the built change
input: no remote call, no error, no call-index advance. -/
lemma updateRecord_commit_false (client : RemoteClient) (clock : Clock)
    (callIdx tick : Nat) (hc : HostConfig) (hn : String) (ip : List Nat) :
    UpdateRoute53Record client clock callIdx tick hc hn ip false =
      { events := [Event.logChangeInput (MakeChangeRequest (clock tick) hc.zoneId hn ip hc.ttl)]
      , err := none, nextCall := callIdx, nextTick := tick + 1 } := rfl

/-- The per-host update never invokes the notifier itself. -/
lemma notify_not_mem_updateRecord (client : RemoteClient) (clock : Clock)
    (callIdx tick : Nat) (hc : HostConfig) (hn : String) (ip : List Nat) (commit : Bool)
    (h : String) (e : Option String) :
    Event.notify h e ∉ (UpdateRoute53Record client clock callIdx tick hc hn ip commit).events := by
  unfold UpdateRoute53Record
  by_cases hcommit : commit
  · simp only [hcommit, if_true]
    cases client callIdx (MakeChangeRequest (clock tick) hc.zoneId hn ip hc.ttl) <;> simp
  · simp [hcommit]

/-- The per-host update contains no notifier events, counted. -/
lemma countP_isNotify_updateRecord (client : RemoteClient) (clock : Clock)
    (callIdx tick : Nat) (hc : HostConfig) (hn : String) (ip : List Nat) (commit : Bool) :
    ((UpdateRoute53Record client clock callIdx tick hc hn ip commit).events).countP
      (fun e => e.isNotify) = 0 := by
  unfold UpdateRoute53Record
  by_cases hcommit : commit
  · simp only [hcommit, if_true]
    cases client callIdx (MakeChangeRequest (clock tick) hc.zoneId hn ip hc.ttl) <;>
      simp [Event.isNotify]
  · simp [hcommit, Event.isNotify]

/-- The remote calls of one per-host update: exactly the built input when
committing, none otherwise. -/
lemma filterMap_remoteCallInput_updateRecord (client : RemoteClient) (clock : Clock)
    (callIdx tick : Nat) (hc : HostConfig) (hn : String) (ip : List Nat) (commit : Bool) :
    ((UpdateRoute53Record client clock callIdx tick hc hn ip commit).events).filterMap
        remoteCallInput =
      if commit then [MakeChangeRequest (clock tick) hc.zoneId hn ip hc.ttl] else [] := by
  unfold UpdateRoute53Record
  by_cases hcommit : commit
  · simp only [hcommit, if_true]
    cases client callIdx (MakeChangeRequest (clock tick) hc.zoneId hn ip hc.ttl) <;>
      simp [remoteCallInput]
  · simp [hcommit, remoteCallInput]

/-- The returned error of one per-host update. -/
lemma updateRecord_err (client : RemoteClient) (clock : Clock)
    (callIdx tick : Nat) (hc : HostConfig) (hn : String) (ip : List Nat) (commit : Bool) :
    (UpdateRoute53Record client clock callIdx tick hc hn ip commit).err =
      if commit then client callIdx (MakeChangeRequest (clock tick) hc.zoneId hn ip hc.ttl)
      else none := by
  unfold UpdateRoute53Record
  by_cases hcommit : commit
  · simp only [hcommit, if_true]
    cases client callIdx (MakeChangeRequest (clock tick) hc.zoneId hn ip hc.ttl) <;> simp
  · simp [hcommit]

/-- The call index after one per-host update. -/
lemma updateRecord_nextCall (client : RemoteClient) (clock : Clock)
    (callIdx tick : Nat) (hc : HostConfig) (hn : String) (ip : List Nat) (commit : Bool) :
    (UpdateRoute53Record client clock callIdx tick hc hn ip commit).nextCall =
      if commit then callIdx + 1 else callIdx := by
  unfold UpdateRoute53Record
  by_cases hcommit : commit
  · simp only [hcommit, if_true]
    cases client callIdx (MakeChangeRequest (clock tick) hc.zoneId hn ip hc.ttl) <;> simp
  · simp [hcommit]

/-- The clock tick after one per-host update. -/
lemma updateRecord_nextTick (client : RemoteClient) (clock : Clock)
    (callIdx tick : Nat) (hc : HostConfig) (hn : String) (ip : List Nat) (commit : Bool) :
    (UpdateRoute53Record client clock callIdx tick hc hn ip commit).nextTick = tick + 1 := by
  unfold UpdateRoute53Record
  by_cases hcommit : commit
  · simp only [hcommit, if_true]
    cases client callIdx (MakeChangeRequest (clock tick) hc.zoneId hn ip hc.ttl) <;> simp
  · simp [hcommit]

/-- Trace of a found-host run whose primary update succeeded: the primary
update's events followed by one success notification, nothing else. -/
lemma processIpChange_found_success (client : RemoteClient) (clock : Clock)
    (cfg : AppConfig) (r : UpdateRequest) (ip : List Nat) (hc : HostConfig)
    (h1 : validateIp r = .ok ip) (h2 : cfg.records r.Host = some hc)
    (h3 : (UpdateRoute53Record client clock 0 0 hc r.Host ip r.Commit).err = none) :
    ProcessIpChange client clock cfg r =
      (UpdateRoute53Record client clock 0 0 hc r.Host ip r.Commit).events ++
        [Event.notify r.Host none] := by
  simp [ProcessIpChange, h1, h2, h3]

/-- Trace of a found-host run whose primary update failed: the primary update's
events, one failure notification for the primary, then the fan-out trace. -/
lemma processIpChange_found_failure (client : RemoteClient) (clock : Clock)
    (cfg : AppConfig) (r : UpdateRequest) (ip : List Nat) (hc : HostConfig) (e : String)
    (h1 : validateIp r = .ok ip) (h2 : cfg.records r.Host = some hc)
    (h3 : (UpdateRoute53Record client clock 0 0 hc r.Host ip r.Commit).err = some e) :
    ProcessIpChange client clock cfg r =
      (UpdateRoute53Record client clock 0 0 hc r.Host ip r.Commit).events ++
        [Event.notify r.Host (some e)] ++
        processAdditionalHosts client clock hc ip r.Commit hc.additionalHosts
          (UpdateRoute53Record client clock 0 0 hc r.Host ip r.Commit).nextCall
          (UpdateRoute53Record client clock 0 0 hc r.Host ip r.Commit).nextTick := by
  simp [ProcessIpChange, h1, h2, h3]

/-- One unfolding step of the fan-out loop. -/
lemma processAdditionalHosts_cons (client : RemoteClient) (clock : Clock)
    (hc : HostConfig) (ip : List Nat) (commit : Bool) (a : String) (rest : List String)
    (n t : Nat) :
    processAdditionalHosts client clock hc ip commit (a :: rest) n t =
      (UpdateRoute53Record client clock n t hc a ip commit).events ++
        (match (UpdateRoute53Record client clock n t hc a ip commit).err with
         | some e => [Event.notify a (some e)]
         | none => []) ++
        processAdditionalHosts client clock hc ip commit rest
          (UpdateRoute53Record client clock n t hc a ip commit).nextCall
          (UpdateRoute53Record client clock n t hc a ip commit).nextTick := rfl

/-- Remote calls of a committing fan-out run: one change input per listed host,
in order, all with the fan-out's zone, IP and TTL, independent of how the
client answers each call. -/
lemma filterMap_remoteCallInput_fan (client : RemoteClient) (clock : Clock)
    (hc : HostConfig) (ip : List Nat) :
    ∀ (hosts : List String) (n t : Nat),
      (processAdditionalHosts client clock hc ip true hosts n t).filterMap remoteCallInput =
        mkFanInputs clock hc.zoneId ip hc.ttl hosts t := by
  intro hosts
  induction hosts with
  | nil => intro n t; simp [processAdditionalHosts, mkFanInputs]
  | cons a rest ih =>
    intro n t
    rw [processAdditionalHosts_cons]
    rw [List.filterMap_append, List.filterMap_append]
    rw [filterMap_remoteCallInput_updateRecord, updateRecord_nextCall, updateRecord_nextTick]
    cases herr : (UpdateRoute53Record client clock n t hc a ip true).err with
    | none => simp [mkFanInputs, ih, remoteCallInput]
    | some e => simp [mkFanInputs, ih, remoteCallInput]

/-- Notifier invocations of a committing fan-out run: `notify x e` occurs
exactly when `x` is the `j`-th listed host and the client failed that host's
call (made at call index `n + j`, clock tick `t + j`) with the error carried
by `e`. -/
lemma notify_mem_fan_iff (client : RemoteClient) (clock : Clock)
    (hc : HostConfig) (ip : List Nat) :
    ∀ (hosts : List String) (n t : Nat) (x : String) (e : Option String),
      Event.notify x e ∈ processAdditionalHosts client clock hc ip true hosts n t ↔
        ∃ j err, hosts[j]? = some x ∧
          client (n + j) (MakeChangeRequest (clock (t + j)) hc.zoneId x ip hc.ttl) = some err ∧
          e = some err := by
  intro hosts
  induction hosts with
  | nil =>
    intro n t x e
    simp [processAdditionalHosts]
  | cons a rest ih =>
    intro n t x e
    rw [processAdditionalHosts_cons, updateRecord_nextCall, updateRecord_nextTick]
    have herr0 := updateRecord_err client clock n t hc a ip true
    simp only [if_true] at herr0 ⊢
    constructor
    · intro hmem
      rcases List.mem_append.1 hmem with hmem1 | hrec
      · rcases List.mem_append.1 hmem1 with hup | hmid
        · exact absurd hup (notify_not_mem_updateRecord client clock n t hc a ip true x e)
        · cases herr : (UpdateRoute53Record client clock n t hc a ip true).err with
          | none => rw [herr] at hmid; simp at hmid
          | some err0 =>
            rw [herr] at hmid
            simp only [List.mem_singleton, Event.notify.injEq] at hmid
            obtain ⟨hx, he⟩ := hmid
            subst hx
            refine ⟨0, err0, by simp, ?_, he⟩
            rw [herr0] at herr
            simpa using herr
      · obtain ⟨j, err, hj, hcl, he⟩ := (ih (n + 1) (t + 1) x e).1 hrec
        refine ⟨j + 1, err, by simpa using hj, ?_, he⟩
        have hn : n + (j + 1) = n + 1 + j := by omega
        have ht : t + (j + 1) = t + 1 + j := by omega
        rw [hn, ht]
        exact hcl
    · rintro ⟨j, err, hj, hcl, he⟩
      cases j with
      | zero =>
        simp only [List.getElem?_cons_zero, Option.some.injEq] at hj
        subst hj
        subst he
        apply List.mem_append.2
        left
        apply List.mem_append.2
        right
        rw [herr0]
        simp only [Nat.add_zero] at hcl
        rw [hcl]
        simp
      | succ j =>
        apply List.mem_append.2
        right
        apply (ih (n + 1) (t + 1) x e).2
        refine ⟨j, err, by simpa using hj, ?_, he⟩
        have hn : n + 1 + j = n + (j + 1) := by omega
        have ht : t + 1 + j = t + (j + 1) := by omega
        rw [hn, ht]
        exact hcl

/-! ## Claim theorems: orchestration, handler, change builder -/

/-- C1: a request whose IP fails validation, and a request whose host is absent
from the configured records (with a valid IP), both terminate `ProcessIpChange`
with no remote DNS call and no notification; the trace is exactly the one
logged error. -/
theorem processIpChange_invalid_or_unknown_no_effects
    (client : RemoteClient) (clock : Clock) (cfg : AppConfig) (r : UpdateRequest) :
    (∀ msg, validateIp r = .error msg →
      ProcessIpChange client clock cfg r = [Event.logInvalidIp r msg] ∧
      ∀ e ∈ ProcessIpChange client clock cfg r,
        e.isRemoteCall = false ∧ e.isNotify = false) ∧
    (∀ ip, validateIp r = .ok ip → cfg.records r.Host = none →
      ProcessIpChange client clock cfg r = [Event.logHostNotFound r] ∧
      ∀ e ∈ ProcessIpChange client clock cfg r,
        e.isRemoteCall = false ∧ e.isNotify = false) := by
  constructor
  · intro msg h
    have htr : ProcessIpChange client clock cfg r = [Event.logInvalidIp r msg] := by
      simp [ProcessIpChange, h]
    refine ⟨htr, ?_⟩
    rw [htr]
    intro e he
    simp only [List.mem_singleton] at he
    subst he
    exact ⟨rfl, rfl⟩
  · intro ip h1 h2
    have htr : ProcessIpChange client clock cfg r = [Event.logHostNotFound r] := by
      simp [ProcessIpChange, h1, h2]
    refine ⟨htr, ?_⟩
    rw [htr]
    intro e he
    simp only [List.mem_singleton] at he
    subst he
    exact ⟨rfl, rfl⟩

/-- C4: for a configured host, the primary outcome is notified exactly once (a
single notification event directly after the primary update's events, which
contain no notification); and when the primary update succeeds the trace is
just the primary update plus that one success notification — in particular no
remote call beyond the primary's own and no fan-out. -/
theorem primary_success_no_fanout_single_notification
    (client : RemoteClient) (clock : Clock) (cfg : AppConfig) (r : UpdateRequest)
    (ip : List Nat) (hc : HostConfig)
    (h1 : validateIp r = .ok ip) (h2 : cfg.records r.Host = some hc) :
    (∃ rest, ProcessIpChange client clock cfg r =
        (UpdateRoute53Record client clock 0 0 hc r.Host ip r.Commit).events ++
          Event.notify r.Host (UpdateRoute53Record client clock 0 0 hc r.Host ip r.Commit).err ::
            rest ∧
      ∀ x e, Event.notify x e ∉
        (UpdateRoute53Record client clock 0 0 hc r.Host ip r.Commit).events) ∧
    ((UpdateRoute53Record client clock 0 0 hc r.Host ip r.Commit).err = none →
      ProcessIpChange client clock cfg r =
        (UpdateRoute53Record client clock 0 0 hc r.Host ip r.Commit).events ++
          [Event.notify r.Host none] ∧
      (ProcessIpChange client clock cfg r).countP (fun e => e.isNotify) = 1 ∧
      (ProcessIpChange client clock cfg r).filterMap remoteCallInput =
        (if r.Commit then [MakeChangeRequest (clock 0) hc.zoneId r.Host ip hc.ttl] else [])) := by
  constructor
  · cases herr : (UpdateRoute53Record client clock 0 0 hc r.Host ip r.Commit).err with
    | none =>
      refine ⟨[], ?_, fun x e => notify_not_mem_updateRecord client clock 0 0 hc r.Host ip r.Commit x e⟩
      rw [processIpChange_found_success client clock cfg r ip hc h1 h2 herr]
    | some e0 =>
      refine ⟨processAdditionalHosts client clock hc ip r.Commit hc.additionalHosts
          (UpdateRoute53Record client clock 0 0 hc r.Host ip r.Commit).nextCall
          (UpdateRoute53Record client clock 0 0 hc r.Host ip r.Commit).nextTick, ?_,
        fun x e => notify_not_mem_updateRecord client clock 0 0 hc r.Host ip r.Commit x e⟩
      rw [processIpChange_found_failure client clock cfg r ip hc e0 h1 h2 herr]
      simp
  · intro herr
    have htr := processIpChange_found_success client clock cfg r ip hc h1 h2 herr
    refine ⟨htr, ?_, ?_⟩
    · rw [htr, List.countP_append, countP_isNotify_updateRecord]
      rfl
    · rw [htr, List.filterMap_append, filterMap_remoteCallInput_updateRecord]
      simp [remoteCallInput]

/-- C5: the additional hosts are attempted exactly when the primary update
fails, each exactly once, in configured order, with the primary's zone, TTL
and the validated IP (one change input per listed host, regardless of how the
client answers each fan-out call); on primary success the only remote call, if
any, is the primary's own. -/
theorem fanout_iff_primary_failure_calls_in_order
    (client : RemoteClient) (clock : Clock) (cfg : AppConfig) (r : UpdateRequest)
    (ip : List Nat) (hc : HostConfig)
    (h1 : validateIp r = .ok ip) (h2 : cfg.records r.Host = some hc) :
    (∀ e, (UpdateRoute53Record client clock 0 0 hc r.Host ip r.Commit).err = some e →
      (ProcessIpChange client clock cfg r).filterMap remoteCallInput =
        MakeChangeRequest (clock 0) hc.zoneId r.Host ip hc.ttl ::
          mkFanInputs clock hc.zoneId ip hc.ttl hc.additionalHosts 1) ∧
    ((UpdateRoute53Record client clock 0 0 hc r.Host ip r.Commit).err = none →
      (ProcessIpChange client clock cfg r).filterMap remoteCallInput =
        (if r.Commit then [MakeChangeRequest (clock 0) hc.zoneId r.Host ip hc.ttl] else [])) := by
  constructor
  · intro e herr
    have hcommit : r.Commit = true := by
      by_contra hcf
      rw [updateRecord_err] at herr
      simp [hcf] at herr
    have htr := processIpChange_found_failure client clock cfg r ip hc e h1 h2 herr
    rw [htr, List.filterMap_append, List.filterMap_append,
      filterMap_remoteCallInput_updateRecord, updateRecord_nextCall, updateRecord_nextTick,
      hcommit]
    rw [filterMap_remoteCallInput_fan]
    simp [remoteCallInput]
  · intro herr
    rw [processIpChange_found_success client clock cfg r ip hc h1 h2 herr,
      List.filterMap_append, filterMap_remoteCallInput_updateRecord]
    simp [remoteCallInput]

/-- C6: when the primary update failed, a fan-out notification for an
additional host occurs exactly when that host's own update call failed (the
`j`-th listed host being the client's call `1 + j`); an additional host's
success is never notified — indeed no success notification occurs at all in a
failed-primary run. -/
theorem fanout_notify_iff_additional_failure
    (client : RemoteClient) (clock : Clock) (cfg : AppConfig) (r : UpdateRequest)
    (ip : List Nat) (hc : HostConfig) (e0 : String)
    (h1 : validateIp r = .ok ip) (h2 : cfg.records r.Host = some hc)
    (h3 : (UpdateRoute53Record client clock 0 0 hc r.Host ip r.Commit).err = some e0) :
    (∀ j x e, hc.additionalHosts[j]? = some x →
      client (1 + j) (MakeChangeRequest (clock (1 + j)) hc.zoneId x ip hc.ttl) = some e →
      Event.notify x (some e) ∈ ProcessIpChange client clock cfg r) ∧
    (∀ x e, Event.notify x e ∈ ProcessIpChange client clock cfg r →
      (x = r.Host ∧ e = some e0) ∨
      ∃ j err, hc.additionalHosts[j]? = some x ∧
        client (1 + j) (MakeChangeRequest (clock (1 + j)) hc.zoneId x ip hc.ttl) = some err ∧
        e = some err) ∧
    (∀ x, Event.notify x none ∉ ProcessIpChange client clock cfg r) := by
  have hcommit : r.Commit = true := by
    by_contra hcf
    rw [updateRecord_err] at h3
    simp [hcf] at h3
  have htr := processIpChange_found_failure client clock cfg r ip hc e0 h1 h2 h3
  rw [updateRecord_nextCall, updateRecord_nextTick, hcommit] at htr
  simp only [if_true, Nat.zero_add] at htr
  have hfan := notify_mem_fan_iff client clock hc ip hc.additionalHosts 1 1
  have hmain : ∀ x e, Event.notify x e ∈ ProcessIpChange client clock cfg r ↔
      ((x = r.Host ∧ e = some e0) ∨
        ∃ j err, hc.additionalHosts[j]? = some x ∧
          client (1 + j) (MakeChangeRequest (clock (1 + j)) hc.zoneId x ip hc.ttl) = some err ∧
          e = some err) := by
    intro x e
    rw [htr]
    constructor
    · intro hmem
      rcases List.mem_append.1 hmem with hmem1 | hrec
      · rcases List.mem_append.1 hmem1 with hup | hnot
        · exact absurd hup (notify_not_mem_updateRecord client clock 0 0 hc r.Host ip true x e)
        · simp only [List.mem_singleton, Event.notify.injEq] at hnot
          exact Or.inl ⟨hnot.1, hnot.2⟩
      · right
        obtain ⟨j, err, hj, hcl, he⟩ := (hfan x e).1 hrec
        exact ⟨j, err, hj, hcl, he⟩
    · intro hcase
      rcases hcase with ⟨hx, he⟩ | ⟨j, err, hj, hcl, he⟩
      · subst hx; subst he
        exact List.mem_append.2 (Or.inl (List.mem_append.2 (Or.inr (by simp))))
      · refine List.mem_append.2 (Or.inr ?_)
        exact (hfan x e).2 ⟨j, err, hj, hcl, he⟩
  refine ⟨?_, fun x e hmem => (hmain x e).1 hmem, ?_⟩
  · intro j x e hj hcl
    exact (hmain x (some e)).2 (Or.inr ⟨j, e, hj, hcl, rfl⟩)
  · intro x hmem
    rcases (hmain x none).1 hmem with ⟨_, he⟩ | ⟨_, _, _, _, he⟩ <;> exact Option.noConfusion he

/-- C7: a valid request for a configured host with `commit = false` builds and
logs the change payload but performs zero remote calls, and the per-host
update reports no error. -/
theorem commit_false_no_remote_calls
    (client : RemoteClient) (clock : Clock) (cfg : AppConfig) (r : UpdateRequest)
    (ip : List Nat) (hc : HostConfig)
    (h1 : validateIp r = .ok ip) (h2 : cfg.records r.Host = some hc)
    (h3 : r.Commit = false) :
    ProcessIpChange client clock cfg r =
      [Event.logChangeInput (MakeChangeRequest (clock 0) hc.zoneId r.Host ip hc.ttl),
       Event.notify r.Host none] ∧
    (ProcessIpChange client clock cfg r).filterMap remoteCallInput = [] ∧
    (UpdateRoute53Record client clock 0 0 hc r.Host ip r.Commit).err = none := by
  have herr : (UpdateRoute53Record client clock 0 0 hc r.Host ip r.Commit).err = none := by
    rw [updateRecord_err]
    simp [h3]
  have htr := processIpChange_found_success client clock cfg r ip hc h1 h2 herr
  rw [h3, updateRecord_commit_false] at htr
  refine ⟨htr, ?_, herr⟩
  rw [htr]
  simp [remoteCallInput]

/-- C10: a valid request for a configured host with `commit = false` still
produces a success notification (error `none`) for the primary host, although
the run performs zero remote calls. -/
theorem commit_false_still_notifies_success
    (client : RemoteClient) (clock : Clock) (cfg : AppConfig) (r : UpdateRequest)
    (ip : List Nat) (hc : HostConfig)
    (h1 : validateIp r = .ok ip) (h2 : cfg.records r.Host = some hc)
    (h3 : r.Commit = false) :
    Event.notify r.Host none ∈ ProcessIpChange client clock cfg r ∧
    (ProcessIpChange client clock cfg r).countP (fun e => e.isRemoteCall) = 0 := by
  have herr : (UpdateRoute53Record client clock 0 0 hc r.Host ip r.Commit).err = none := by
    rw [updateRecord_err]
    simp [h3]
  have htr := processIpChange_found_success client clock cfg r ip hc h1 h2 herr
  rw [h3, updateRecord_commit_false] at htr
  rw [htr]
  exact ⟨by simp, by simp [Event.isRemoteCall]⟩

/-- C8: the change builder produces exactly two operations, both UPSERT: an A
record named `hostname ++ "."` with the given TTL and the IP's dotted string
as its single value, and a TXT record with the same name and TTL whose single
value is the human-readable last-updated timestamp string. -/
theorem makeChangeRequest_two_upserts (now zoneId hostname : String)
    (ip : List Nat) (ttl : Int) :
    (MakeChangeRequest now zoneId hostname ip ttl).changeBatchChanges.length = 2 ∧
    (∀ c ∈ (MakeChangeRequest now zoneId hostname ip ttl).changeBatchChanges,
      c.action = ChangeAction.upsert) ∧
    (MakeChangeRequest now zoneId hostname ip ttl).changeBatchChanges[0]? =
      some { action := ChangeAction.upsert
           , resourceRecordSet :=
               { name := hostname ++ ".", recordType := RRType.A, ttl := ttl
               , resourceRecords := [ipToString ip] } } ∧
    (MakeChangeRequest now zoneId hostname ip ttl).changeBatchChanges[1]? =
      some { action := ChangeAction.upsert
           , resourceRecordSet :=
               { name := hostname ++ ".", recordType := RRType.TXT, ttl := ttl
               , resourceRecords := ["\"Last Updated: " ++ now ++ "\""] } } := by
  refine ⟨rfl, ?_, rfl, rfl⟩
  intro c hcm
  simp only [MakeChangeRequest, List.mem_cons, List.mem_singleton, List.not_mem_nil,
    or_false] at hcm
  rcases hcm with h | h <;> subst h <;> rfl

/-- C9: when the commit parameter is present but does not parse as a boolean,
the handler does not reject the request: it builds the request with
`Commit = false`, so the update proceeds as a dry run. -/
theorem unparseable_commit_defaults_false (hostnameParam ipParam : Option String)
    (v : String) (h : ParseBool v = none) :
    nicUpdateHandler hostnameParam ipParam (some v) =
      { Host := hostnameParam.getD "", IP := ipParam.getD "", Commit := false } := by
  simp [nicUpdateHandler, parseCommitParam, h]

/-- C3 (amended): an absent commit parameter yields `Commit = true`; a present
parameter that parses as a boolean yields the parsed value; a present
parameter that does not parse yields `Commit = false` (the request is not
rejected). -/
theorem commit_param_semantics (hostnameParam ipParam : Option String) :
    (nicUpdateHandler hostnameParam ipParam none).Commit = true ∧
    (∀ v b, ParseBool v = some b →
      (nicUpdateHandler hostnameParam ipParam (some v)).Commit = b) ∧
    (∀ v, ParseBool v = none →
      (nicUpdateHandler hostnameParam ipParam (some v)).Commit = false) := by
  refine ⟨rfl, ?_, ?_⟩
  · intro v b h
    simp [nicUpdateHandler, parseCommitParam, h]
  · intro v h
    simp [nicUpdateHandler, parseCommitParam, h]

/-- C3 counterexample: with the commit parameter present as `"yes"` (which
does not parse as a boolean), the handler still builds a request — with
`Commit = false` — instead of using a parsed boolean value, so a present
commit parameter need not parse as a boolean. -/
theorem commit_param_unparseable_counterexample :
    ParseBool "yes" = none ∧
    (nicUpdateHandler (some "example.com") (some "203.0.113.5") (some "yes")).Commit = false := by
  exact ⟨rfl, rfl⟩

/-! ## Concrete fixtures and witnesses -/

/-- A sample host configuration with two additional hosts. -/
def sampleHostConfig : HostConfig :=
  { zoneId := "Z1", ttl := 300, additionalHosts := ["backup.example.com", "alt.example.com"] }

/-- A sample application configuration with one configured primary host. -/
def sampleConfig : AppConfig :=
  { port := 8080
  , records := fun h => if h = "example.com" then some sampleHostConfig else none
  , pushover := { apiToken := "tok", recipientKey := "key" } }

/-- A valid committing request for the configured host. -/
def sampleRequest : UpdateRequest :=
  { Host := "example.com", IP := "203.0.113.5", Commit := true }

/-- The same request with `commit = false`. -/
def sampleDryRequest : UpdateRequest :=
  { Host := "example.com", IP := "203.0.113.5", Commit := false }

/-- A remote client on which every call succeeds. -/
def okClient : RemoteClient := fun _ _ => none

/-- A remote client failing only the first call (the primary's). -/
def failPrimaryClient : RemoteClient := fun n _ => if n = 0 then some "boom" else none

/-- A remote client failing the first two calls (primary and first additional
host) and succeeding afterwards. -/
def mixedClient : RemoteClient := fun n _ => if n ≤ 1 then some "boom" else none

/-- A sample clock. -/
def sampleClock : Clock := fun t => "2025-01-01 00:00:0" ++ toString t

theorem processIpChange_invalid_or_unknown_no_effects_witness :
    ProcessIpChange okClient sampleClock sampleConfig
        { Host := "example.com", IP := "not-an-ip", Commit := true } =
      [Event.logInvalidIp { Host := "example.com", IP := "not-an-ip", Commit := true }
        "'not-an-ip' is not a valid IpV4 address"] ∧
    ProcessIpChange okClient sampleClock sampleConfig
        { Host := "missing.example.com", IP := "203.0.113.5", Commit := true } =
      [Event.logHostNotFound
        { Host := "missing.example.com", IP := "203.0.113.5", Commit := true }] :=
  ⟨((processIpChange_invalid_or_unknown_no_effects okClient sampleClock sampleConfig
      { Host := "example.com", IP := "not-an-ip", Commit := true }).1
      "'not-an-ip' is not a valid IpV4 address" rfl).1,
   ((processIpChange_invalid_or_unknown_no_effects okClient sampleClock sampleConfig
      { Host := "missing.example.com", IP := "203.0.113.5", Commit := true }).2
      [203, 0, 113, 5] rfl rfl).1⟩

theorem primary_success_no_fanout_single_notification_witness :
    ProcessIpChange okClient sampleClock sampleConfig sampleRequest =
      (UpdateRoute53Record okClient sampleClock 0 0 sampleHostConfig "example.com"
        [203, 0, 113, 5] true).events ++ [Event.notify "example.com" none] ∧
    (ProcessIpChange okClient sampleClock sampleConfig sampleRequest).countP
      (fun e => e.isNotify) = 1 :=
  ⟨((primary_success_no_fanout_single_notification okClient sampleClock sampleConfig
      sampleRequest [203, 0, 113, 5] sampleHostConfig rfl rfl).2 rfl).1,
   ((primary_success_no_fanout_single_notification okClient sampleClock sampleConfig
      sampleRequest [203, 0, 113, 5] sampleHostConfig rfl rfl).2 rfl).2.1⟩

theorem fanout_iff_primary_failure_calls_in_order_witness :
    (ProcessIpChange failPrimaryClient sampleClock sampleConfig sampleRequest).filterMap
        remoteCallInput =
      MakeChangeRequest (sampleClock 0) "Z1" "example.com" [203, 0, 113, 5] 300 ::
        mkFanInputs sampleClock "Z1" [203, 0, 113, 5] 300
          ["backup.example.com", "alt.example.com"] 1 :=
  (fanout_iff_primary_failure_calls_in_order failPrimaryClient sampleClock sampleConfig
    sampleRequest [203, 0, 113, 5] sampleHostConfig rfl rfl).1 "boom" rfl

theorem fanout_notify_iff_additional_failure_witness :
    Event.notify "backup.example.com" (some "boom") ∈
      ProcessIpChange mixedClient sampleClock sampleConfig sampleRequest ∧
    Event.notify "alt.example.com" none ∉
      ProcessIpChange mixedClient sampleClock sampleConfig sampleRequest :=
  ⟨(fanout_notify_iff_additional_failure mixedClient sampleClock sampleConfig sampleRequest
      [203, 0, 113, 5] sampleHostConfig "boom" rfl rfl rfl).1 0 "backup.example.com" "boom"
      rfl rfl,
   (fanout_notify_iff_additional_failure mixedClient sampleClock sampleConfig sampleRequest
      [203, 0, 113, 5] sampleHostConfig "boom" rfl rfl rfl).2.2 "alt.example.com"⟩

theorem commit_false_no_remote_calls_witness :
    ProcessIpChange okClient sampleClock sampleConfig sampleDryRequest =
      [Event.logChangeInput (MakeChangeRequest (sampleClock 0) "Z1" "example.com"
        [203, 0, 113, 5] 300),
       Event.notify "example.com" none] ∧
    (ProcessIpChange okClient sampleClock sampleConfig sampleDryRequest).filterMap
      remoteCallInput = [] :=
  ⟨(commit_false_no_remote_calls okClient sampleClock sampleConfig sampleDryRequest
      [203, 0, 113, 5] sampleHostConfig rfl rfl rfl).1,
   (commit_false_no_remote_calls okClient sampleClock sampleConfig sampleDryRequest
      [203, 0, 113, 5] sampleHostConfig rfl rfl rfl).2.1⟩

theorem commit_false_still_notifies_success_witness :
    Event.notify "example.com" none ∈
      ProcessIpChange okClient sampleClock sampleConfig sampleDryRequest ∧
    (ProcessIpChange okClient sampleClock sampleConfig sampleDryRequest).countP
      (fun e => e.isRemoteCall) = 0 :=
  commit_false_still_notifies_success okClient sampleClock sampleConfig sampleDryRequest
    [203, 0, 113, 5] sampleHostConfig rfl rfl rfl

theorem unparseable_commit_defaults_false_witness :
    ParseBool "yes" = none ∧
    nicUpdateHandler (some "example.com") (some "203.0.113.5") (some "yes") =
      { Host := "example.com", IP := "203.0.113.5", Commit := false } :=
  ⟨rfl, unparseable_commit_defaults_false (some "example.com") (some "203.0.113.5") "yes" rfl⟩

theorem commit_param_semantics_witness :
    (nicUpdateHandler (some "example.com") (some "203.0.113.5") none).Commit = true ∧
    (nicUpdateHandler (some "example.com") (some "203.0.113.5") (some "False")).Commit = false ∧
    (nicUpdateHandler (some "example.com") (some "203.0.113.5") (some "yes")).Commit = false :=
  ⟨(commit_param_semantics (some "example.com") (some "203.0.113.5")).1,
   (commit_param_semantics (some "example.com") (some "203.0.113.5")).2.1 "False" false rfl,
   (commit_param_semantics (some "example.com") (some "203.0.113.5")).2.2 "yes" rfl⟩

/-! ## Soundness of the Go IPv4 parse path with respect to the grammar -/

/-- Generalized soundness invariant of `parseIPv4Fields`: from any state whose
running octet value is in range (and with a nonempty remainder unless a digit
was already read), success means the remainder splits at dots into groups that
extend the current octet and are otherwise valid octets, four octets in all. -/
lemma parseIPv4Fields_sound :
    ∀ (cs : List Char) (val digLen : Nat) (fields : List Nat) (r : List Nat),
      parseIPv4Fields cs val digLen fields = some r →
      val ≤ 255 → fields.length ≤ 3 → (digLen = 0 → val = 0) → (cs = [] → digLen ≠ 0) →
      ∃ g0 gs, splitDot cs = g0 :: gs ∧
        g0.all Char.isDigit = true ∧
        foldVal val g0 ≤ 255 ∧
        (digLen = 1 → val = 0 → g0 = []) ∧
        (digLen = 0 → validOctetField g0 = true) ∧
        (∀ g ∈ gs, validOctetField g = true) ∧
        fields.length + (gs.length + 1) = 4 := by
  intro cs
  induction cs with
  | nil =>
    intro val digLen fields r hp h255 hflen hdl0 hne
    have hdne : digLen ≠ 0 := hne rfl
    simp only [parseIPv4Fields] at hp
    by_cases hlen : fields.length < 3
    · rw [if_pos hlen] at hp; exact absurd hp (by simp)
    · rw [if_neg hlen] at hp
      refine ⟨[], [], rfl, rfl, ?_, ?_, ?_, ?_, ?_⟩
      · simpa [foldVal] using h255
      · intro _ _; rfl
      · intro h; exact absurd h hdne
      · intro g hg; simp at hg
      · simp only [List.length_nil]; omega
  | cons c rest ih =>
    intro val digLen fields r hp h255 hflen hdl0 _hne
    simp only [parseIPv4Fields] at hp
    by_cases hdig : c.isDigit
    · rw [if_pos hdig] at hp
      by_cases hlz : digLen = 1 ∧ val = 0
      · rw [if_pos hlz] at hp; exact absurd hp (by simp)
      · rw [if_neg hlz] at hp
        by_cases hov : 255 < val * 10 + digitVal c
        · rw [if_pos hov] at hp; exact absurd hp (by simp)
        · rw [if_neg hov] at hp
          have hv255 : val * 10 + digitVal c ≤ 255 := Nat.not_lt.mp hov
          obtain ⟨g0, gs, hsplit, hdigits, hfold, hlz1, _hvoct, hgs, hcount⟩ :=
            ih (val * 10 + digitVal c) (digLen + 1) fields r hp hv255 hflen
              (by omega) (by intro _; omega)
          have hcdot : ¬c = '.' := by
            intro hceq
            subst hceq
            simp [Char.isDigit] at hdig
          have hsplit2 : splitDot (c :: rest) = (c :: g0) :: gs := by
            simp only [splitDot, if_neg hcdot, hsplit]
          have hfoldc : foldVal val (c :: g0) = foldVal (val * 10 + digitVal c) g0 := rfl
          refine ⟨c :: g0, gs, hsplit2, ?_, ?_, ?_, ?_, hgs, ?_⟩
          · simp [List.all_cons, hdig, hdigits]
          · rw [hfoldc]; exact hfold
          · intro h1 h0; exact absurd ⟨h1, h0⟩ hlz
          · intro hd0
            have hval0 : val = 0 := hdl0 hd0
            have hfold0 : foldVal 0 (c :: g0) ≤ 255 := by
              rw [← hval0]; rw [hfoldc]; exact hfold
            by_cases hc0 : c = '0'
            · have hg0nil : g0 = [] := by
                apply hlz1
                · omega
                · subst hc0; subst hval0; rfl
              subst hc0; subst hg0nil
              rfl
            · unfold validOctetField noLeadingZero
              simp [hc0, hdig, hdigits, hfold0]
          · exact hcount
    · rw [if_neg hdig] at hp
      by_cases hdot : c = '.'
      · rw [if_pos hdot] at hp
        by_cases hd0 : digLen = 0
        · rw [if_pos hd0] at hp; exact absurd hp (by simp)
        · rw [if_neg hd0] at hp
          by_cases hre : rest.isEmpty
          · rw [if_pos hre] at hp; exact absurd hp (by simp)
          · rw [if_neg hre] at hp
            by_cases hf3 : fields.length = 3
            · rw [if_pos hf3] at hp; exact absurd hp (by simp)
            · rw [if_neg hf3] at hp
              have hrne : rest ≠ [] := by
                intro h; subst h; simp at hre
              obtain ⟨g0, gs, hsplit, _hdigits, _hfold, _hlz1, hvoct, hgs, hcount⟩ :=
                ih 0 0 (fields ++ [val]) r hp (by omega)
                  (by simp only [List.length_append, List.length_singleton]; omega)
                  (fun _ => rfl) (fun hh => absurd hh hrne)
              have hsplit2 : splitDot (c :: rest) = [] :: (g0 :: gs) := by
                subst hdot
                simp [splitDot, hsplit]
              refine ⟨[], g0 :: gs, hsplit2, rfl, ?_, ?_, ?_, ?_, ?_⟩
              · simpa [foldVal] using h255
              · intro _ _; rfl
              · intro h; exact absurd h hd0
              · intro g hg
                rcases List.mem_cons.1 hg with h | h
                · subst h; exact hvoct rfl
                · exact hgs g h
              · simp only [List.length_append, List.length_singleton] at hcount
                simp only [List.length_cons]
                omega
      · rw [if_neg hdot] at hp; exact absurd hp (by simp)

/-- A successful run of the Go IPv4 parse path from its initial state means the
input is in dotted-decimal IPv4 form. -/
lemma isDotted_of_parseIPv4Fields (s : String) (r : List Nat)
    (hne : s.toList ≠ []) (hp : parseIPv4Fields s.toList 0 0 [] = some r) :
    isDottedDecimalIPv4 s = true := by
  obtain ⟨g0, gs, hsplit, _, _, _, hvoct, hgs, hcount⟩ :=
    parseIPv4Fields_sound s.toList 0 0 [] r hp (by omega) (by simp)
      (fun _ => rfl) (fun h => absurd h hne)
  unfold isDottedDecimalIPv4
  rw [hsplit]
  simp only [List.length_nil] at hcount
  rw [Bool.and_eq_true]
  constructor
  · simp only [List.length_cons, decide_eq_true_eq]
    omega
  · rw [List.all_eq_true]
    intro g hg
    rcases List.mem_cons.1 hg with h | h
    · subst h; exact hvoct rfl
    · exact hgs g h

/-- `findSpecial` only returns a character on nonempty input. -/
lemma findSpecial_ne_nil {cs : List Char} {c : Char} (h : findSpecial cs = some c) :
    cs ≠ [] := by
  intro hnil
  subst hnil
  simp [findSpecial] at h

/-- C2 counterexample: `"::ffff:203.0.113.5"` is a valid IPv6 address (in
IPv4-mapped form), hence not in dotted-decimal IPv4 form, yet IP validation
succeeds on it instead of failing with the invalid-address error. -/
theorem validateIp_mapped_ipv6_counterexample :
    isDottedDecimalIPv4 "::ffff:203.0.113.5" = false ∧
    netipParseIPv6 "::ffff:203.0.113.5".toList =
      some ([0, 0, 0, 0, 0, 0, 0, 0, 0, 0, 255, 255, 203, 0, 113, 5], none) ∧
    validateIp { Host := "example.com", IP := "::ffff:203.0.113.5", Commit := true } =
      .ok [203, 0, 113, 5] :=
  ⟨rfl, rfl, rfl⟩

/-- C2 (amended): IP validation succeeds only on strings in dotted-decimal
IPv4 form or in IPv4-mapped IPv6 form; on every other string it fails with
the invalid-address error carrying the offending input. -/
theorem validateIp_only_dotted_or_mapped (r : UpdateRequest)
    (h1 : isDottedDecimalIPv4 r.IP = false)
    (h2 : acceptsAsIPv4MappedIPv6 r.IP = false) :
    validateIp r = .error ("'" ++ r.IP ++ "' is not a valid IpV4 address") := by
  unfold validateIp
  cases hb : (ParseIP r.IP).bind To4 with
  | none => rfl
  | some ip =>
    exfalso
    obtain ⟨b, hPb, hT4⟩ := Option.bind_eq_some.mp hb
    unfold ParseIP at hPb
    cases hfs : findSpecial r.IP.toList with
    | none => rw [hfs] at hPb; exact absurd hPb (by simp)
    | some c =>
      rw [hfs] at hPb
      simp only at hPb
      by_cases hdot : c = '.'
      · rw [if_pos hdot] at hPb
        obtain ⟨fields, hpf, _⟩ := Option.map_eq_some'.mp hPb
        have hd : isDottedDecimalIPv4 r.IP = true :=
          isDotted_of_parseIPv4Fields r.IP fields (findSpecial_ne_nil hfs) hpf
        rw [h1] at hd
        exact Bool.noConfusion hd
      · rw [if_neg hdot] at hPb
        by_cases hcol : c = ':'
        · rw [if_pos hcol] at hPb
          cases hv6 : netipParseIPv6 r.IP.toList with
          | none => rw [hv6] at hPb; exact absurd hPb (by simp)
          | some p =>
            rw [hv6] at hPb
            simp only at hPb
            by_cases hz : p.2.isSome
            · rw [if_pos hz] at hPb; exact absurd hPb (by simp)
            · rw [if_neg hz] at hPb
              have hb1 : p.1 = b := by simpa using hPb
              have hz2 : p.2 = none := Option.not_isSome_iff_eq_none.mp hz
              unfold acceptsAsIPv4MappedIPv6 at h2
              rw [hv6] at h2
              have hp2 : p = (b, none) := by
                obtain ⟨p1, p2⟩ := p
                simp only at hb1 hz2
                rw [hb1, hz2]
              rw [hp2] at h2
              simp only [hT4, Option.isSome_some] at h2
              exact Bool.noConfusion h2
        · rw [if_neg hcol] at hPb
          exact absurd hPb (by simp)

theorem validateIp_only_dotted_or_mapped_witness :
    isDottedDecimalIPv4 "2001:db8::1" = false ∧
    acceptsAsIPv4MappedIPv6 "2001:db8::1" = false ∧
    validateIp { Host := "example.com", IP := "2001:db8::1", Commit := true } =
      .error "'2001:db8::1' is not a valid IpV4 address" :=
  ⟨rfl, rfl, validateIp_only_dotted_or_mapped
    { Host := "example.com", IP := "2001:db8::1", Commit := true } rfl rfl⟩

/-- Sanity check: a dotted-decimal string validates to its four octets. -/
lemma validateIp_dotted_example :
    validateIp { Host := "h", IP := "203.0.113.5", Commit := true } =
      .ok [203, 0, 113, 5] := rfl

/-- Sanity check: the grammar predicate holds of a dotted-decimal string. -/
lemma isDottedDecimalIPv4_pos_example : isDottedDecimalIPv4 "203.0.113.5" = true := rfl

/-- Sanity check: a leading zero is not dotted-decimal form, and Go rejects it. -/
lemma isDottedDecimalIPv4_neg_example :
    isDottedDecimalIPv4 "01.2.3.4" = false ∧ ParseIP "01.2.3.4" = none := ⟨rfl, rfl⟩

/-- Sanity check: out-of-range octets are rejected on both sides. -/
lemma isDottedDecimalIPv4_range_example :
    isDottedDecimalIPv4 "256.1.1.1" = false ∧ ParseIP "256.1.1.1" = none := ⟨rfl, rfl⟩
